import Mathlib

/-!
Verification of the gibbscorrections repository (job lifecycle and
input/output orchestration engine) against its specification.

The Python sources under gibbscorrections/ are shallowly embedded below.
Floating point numbers are modelled as exact rationals (ℚ); Python
exceptions (ValueError, KeyError, IndexError, TypeError, cclib parse
failures) are modelled by Option-valued functions returning none.
-/

namespace GibbsCorrections

/-- Embeds Python str.ljust: pad on the right with spaces up to width w. -/
def ljust (w : ℕ) (s : String) : String :=
  s ++ String.mk (List.replicate (w - s.length) ' ')

/-- Embeds Python str.rjust: pad on the left with spaces up to width w. -/
def rjust (w : ℕ) (s : String) : String :=
  String.mk (List.replicate (w - s.length) ' ') ++ s

/-- Embeds Python str.zfill for the sign-free strings used as job ids:
pad on the left with zeros up to width w. -/
def zfill (w : ℕ) (s : String) : String :=
  String.mk (List.replicate (w - s.length) '0') ++ s

/-- Embeds the Python " ".join(...) used in Molecule.xyz_geometry. -/
def join_space : List String → String
  | [] => ""
  | [s] => s
  | s :: rest => s ++ " " ++ join_space rest

/-- Embeds the Python "\n".join(...) used in OrcaJob.setup_computation. -/
def join_nl : List String → String
  | [] => ""
  | [s] => s
  | s :: rest => s ++ "\n" ++ join_nl rest

/-- Embeds os.path.join for the relative component paths used here. -/
def path_join (a b : String) : String := a ++ "/" ++ b

/-- Embeds str.replace(old, new) for the one-character patterns used by
OrcaJob (spaces mapped to underscores). -/
def replace_char (s : String) (a b : Char) : String :=
  String.mk (s.data.map (fun c => if c = a then b else c))

/-- Embeds str.split("\n") (and the line structure scanned for the
success marker): cut the character list at every newline. -/
def split_newlines_aux : List Char → List Char → List String
  | [], acc => [String.mk acc.reverse]
  | c :: rest, acc =>
    if c = '\n' then String.mk acc.reverse :: split_newlines_aux rest []
    else split_newlines_aux rest (c :: acc)

/-- Splits a string on newline characters. -/
def split_newlines (s : String) : List String := split_newlines_aux s.data []

/-- Decimal digits of a natural number padded to six places, the
fractional part produced by the Python format "{:.6f}". -/
def pad_zeros6 (m : ℕ) : String :=
  let s := toString m
  String.mk (List.replicate (6 - s.length) '0') ++ s

/-- Embeds the Python format "{:.6f}".format(s): fixed-point rendering
with exactly six decimal digits.  The float is modelled as an exact
rational q = num/den and the rounding of the true value to six places is
modelled as round-half-up: the integer rendered is
n = ⌊q·1000000 + 1/2⌋ = ⌊(2·num·1000000 + den) / (2·den)⌋ (Python
rounds the underlying binary double to nearest; no claim exercises a
tie). -/
def fmtFixed6 (q : ℚ) : String :=
  let n : Int := (2 * q.num * 1000000 + q.den).fdiv (2 * q.den)
  let a : ℕ := n.natAbs
  (if n < 0 then "-" else "") ++ toString (a / 1000000) ++ "." ++ pad_zeros6 (a % 1000000)

/-- Embeds cclib PeriodicTable().element: a list indexed by atomic
number whose entry 0 is None (modelled as none). -/
def periodic_table : List (Option String) :=
  [none, some "H", some "He", some "Li", some "Be", some "B", some "C", some "N",
   some "O", some "F", some "Ne", some "Na", some "Mg", some "Al", some "Si",
   some "P", some "S", some "Cl", some "Ar", some "K", some "Ca", some "Sc",
   some "Ti", some "V", some "Cr", some "Mn", some "Fe", some "Co", some "Ni",
   some "Cu", some "Zn", some "Ga", some "Ge", some "As", some "Se", some "Br",
   some "Kr", some "Rb", some "Sr", some "Y", some "Zr", some "Nb", some "Mo",
   some "Tc", some "Ru", some "Rh", some "Pd", some "Ag", some "Cd", some "In",
   some "Sn", some "Sb", some "Te", some "I", some "Xe", some "Cs", some "Ba",
   some "La", some "Ce", some "Pr", some "Nd", some "Pm", some "Sm", some "Eu",
   some "Gd", some "Tb", some "Dy", some "Ho", some "Er", some "Tm", some "Yb",
   some "Lu", some "Hf", some "Ta", some "W", some "Re", some "Os", some "Ir",
   some "Pt", some "Au", some "Hg", some "Tl", some "Pb", some "Bi", some "Po",
   some "At", some "Rn", some "Fr", some "Ra", some "Ac", some "Th", some "Pa",
   some "U", some "Np", some "Pu", some "Am", some "Cm", some "Bk", some "Cf",
   some "Es", some "Fm", some "Md", some "No", some "Lr", some "Rf", some "Db",
   some "Sg", some "Bh", some "Hs", some "Mt", some "Ds", some "Rg", some "Cn",
   some "Uut", some "Fl", some "Uup", some "Lv", some "Uus", some "Uuo"]

/-- Embeds the subscript periodic_table.element[z]: none models both an
IndexError (z out of range) and the None entry at index 0. -/
def element_symbol (z : ℕ) : Option String :=
  match periodic_table.get? z with
  | some (some s) => some s
  | _ => none

/-- Embeds gibbscorrections/molecule.py class Molecule.  The coordinate
rows are the per-atom XYZ triples coming from cclib atomcoords; they are
kept as plain lists since the source iterates them generically. -/
structure Molecule where
  coordinates : List (List ℚ)
  elements_list : List ℕ
  natoms : ℕ
  deriving DecidableEq

/-- Embeds Molecule.__init__: raises ValueError (none) when the two
sequences differ in length, otherwise stores both and natoms. -/
def Molecule.init (coordinates : List (List ℚ)) (elements_list : List ℕ) :
    Option Molecule :=
  if coordinates.length = elements_list.length then
    some ⟨coordinates, elements_list, elements_list.length⟩
  else
    none

/-- Embeds the coordinates property setter: raises ValueError (none)
when the new length differs from natoms; the exception is raised before
any assignment, so on none the Python object is unchanged. -/
def Molecule.set_coordinates (m : Molecule) (value : List (List ℚ)) :
    Option Molecule :=
  if value.length = m.natoms then
    some ⟨value, m.elements_list, m.natoms⟩
  else
    none

/-- Embeds the elements_list property setter: raises ValueError (none)
when the new length differs from natoms. -/
def Molecule.set_elements_list (m : Molecule) (value : List ℕ) :
    Option Molecule :=
  if value.length = m.natoms then
    some ⟨m.coordinates, value, m.natoms⟩
  else
    none

/-- Embeds the natoms property setter, which performs no validation at
all: any value is stored. -/
def Molecule.set_natoms (m : Molecule) (value : ℕ) : Molecule :=
  ⟨m.coordinates, m.elements_list, value⟩

/-- Worker for Molecule.xyz_geometry.  The source iterates
enumerate(self.coordinates) and subscripts self.elements_list[i], which
walks both lists in step; an IndexError (coordinates outnumbering
elements) and a periodic-table lookup failure are modelled as none. -/
def xyz_lines : List (List ℚ) → List ℕ → Option (List String)
  | [], _ => some []
  | atom :: coords, z :: elems =>
    match element_symbol z, xyz_lines coords elems with
    | some sym, some rest =>
      some (join_space (ljust 5 sym :: atom.map (fun s => rjust 25 (fmtFixed6 s))) :: rest)
    | _, _ => none
  | _ :: _, [] => none

/-- Embeds Molecule.xyz_geometry. -/
def Molecule.xyz_geometry (m : Molecule) : Option (List String) :=
  xyz_lines m.coordinates m.elements_list

/-- Embeds the Python dict of chemistry parameters passed to OrcaJob as
orca_args.  An outer none models an absent key, for which a subscript
d["k"] raises KeyError; the inner Option models a key holding None. -/
structure OrcaArgs where
  functional : Option String
  basisset : Option String
  solvent : Option (Option String)
  dispersion : Option (Option String)
  deriving DecidableEq

/-- Embeds the orca_args dict built by corrections.main (line 50): only
the keys functional, basisset and solvent are copied from the parsed
command-line arguments, so the dispersion key is absent. -/
def corrections_orca_arguments (functional basisset : String)
    (solvent : Option String) : OrcaArgs :=
  ⟨some functional, some basisset, some solvent, none⟩

/-- Embeds gibbscorrections.get_orca_arguments (gibbscorrections.py
lines 69-72): only functional and basisset keys are present. -/
def get_orca_arguments (functional basisset : String) : OrcaArgs :=
  ⟨some functional, some basisset, none, none⟩

/-- Embeds gibbscorrections/orca_job.py class OrcaJob.  main passes the
file stem both as name and as job_id, so job_id is a string here. -/
structure OrcaJob where
  name : String
  molecule : Molecule
  job_id : String
  basedir : String
  orca_args : OrcaArgs

/-- Embeds self.filenames["input"] = name.replace(" ", "_") + ".inp". -/
def OrcaJob.filenames_input (j : OrcaJob) : String :=
  replace_char j.name ' ' '_' ++ ".inp"

/-- Embeds self.filenames["output"] = name.replace(" ", "_") + ".out". -/
def OrcaJob.filenames_output (j : OrcaJob) : String :=
  replace_char j.name ' ' '_' ++ ".out"

/-- Embeds the path property: os.path.join(basedir,
name.replace(" ", "_") + "." + str(job_id).zfill(8)). -/
def OrcaJob.path (j : OrcaJob) : String :=
  path_join j.basedir (replace_char j.name ' ' '_' ++ "." ++ zfill 8 j.job_id)

/-- Embeds OrcaJob.build_header (orca_job.py lines 226-248).  The source
subscripts self.orca_args["functional"] and then
self.orca_args["dispersion"]; a missing key raises KeyError (none).
Despite its name the method emits a Gaussian-style route section. -/
def OrcaJob.build_header (j : OrcaJob) : Option (List String) :=
  match j.orca_args.functional with
  | none => none
  | some functional =>
    match j.orca_args.dispersion with
    | none => none
    | some dispersion =>
      let route := "# " ++ functional ++ " " ++
        (match dispersion with
         | some d => "EmpiricalDispersion=" ++ d ++ " "
         | none => "") ++ "gen freq"
      some ["%NProcShared=1", route, "", j.name, "", "0 1"]

/-- Embeds list(set(...)) in build_footer.  CPython set iteration order
for a fixed set of small ints is deterministic within one process; it is
modelled as first-occurrence order, which is all the claims rely on. -/
def dedup_first (l : List ℕ) : List ℕ :=
  l.foldl (fun acc x => if acc.contains x then acc else acc ++ [x]) []

/-- Periodic-table lookup of every element in a list; none models the
IndexError or None entry from the table. -/
def symbols_of : List ℕ → Option (List String)
  | [] => some []
  | z :: zs =>
    match element_symbol z, symbols_of zs with
    | some s, some rest => some (s :: rest)
    | _, _ => none

/-- Embeds OrcaJob.build_footer (orca_job.py lines 250-279): the
deduplicated element symbols joined with spaces plus " 0", the basis set
(KeyError when the key is absent), "****" and a blank line. -/
def OrcaJob.build_footer (j : OrcaJob) : Option (List String) :=
  match symbols_of (dedup_first j.molecule.elements_list) with
  | none => none
  | some elements =>
    match j.orca_args.basisset with
    | none => none
    | some basisset =>
      some [join_space elements ++ " 0", basisset, "****", ""]

/-- Embeds OrcaJob.build_input_script (orca_job.py lines 281-298):
header, geometry, a blank line, footer, then two blank lines. -/
def OrcaJob.build_input_script (j : OrcaJob) : Option (List String) :=
  match j.build_header with
  | none => none
  | some header =>
    match j.molecule.xyz_geometry with
    | none => none
    | some geometry =>
      match j.build_footer with
      | none => none
      | some footer =>
        some (header ++ geometry ++ [""] ++ footer ++ ["", ""])

/-- A file system: a set of directories and a mapping path ↦ content.
Working directories and file writes of the jobs act on this state. -/
structure FileSystem where
  dirs : List String
  files : List (String × String)

/-- The empty file system. -/
def emptyFS : FileSystem := ⟨[], []⟩

/-- Embeds os.makedirs(path, exist_ok): fails (none) when the directory
exists and exist_ok is false, otherwise records the directory. -/
def makedirs (fs : FileSystem) (path : String) (exist_ok : Bool) :
    Option FileSystem :=
  if fs.dirs.contains path && !exist_ok then none
  else some ⟨path :: fs.dirs, fs.files⟩

/-- Embeds open(path, "w") followed by a full write: the previous
content at the path, if any, is replaced. -/
def writeFile (fs : FileSystem) (path content : String) : FileSystem :=
  ⟨fs.dirs, (path, content) :: fs.files.filter (fun kv => !(kv.1 == path))⟩

/-- Reads a file back; none when the path does not exist. -/
def readFile (fs : FileSystem) (path : String) : Option String :=
  (fs.files.find? (fun kv => kv.1 == path)).map (fun kv => kv.2)

/-- Embeds OrcaJob.setup_computation (orca_job.py lines 185-201):
os.makedirs(self.path, exist_ok=True), chdir into it, write the input
file with "\n".join(self.build_input_script()), chdir back.  A KeyError
raised while the script is built propagates (none); the chdir pair is
represented by writing at the absolute path. -/
def OrcaJob.setup_computation (j : OrcaJob) (fs : FileSystem) :
    Option FileSystem :=
  match makedirs fs j.path true with
  | none => none
  | some fs1 =>
    match j.build_input_script with
    | none => none
    | some script =>
      some (writeFile fs1 (path_join j.path j.filenames_input) (join_nl script))

/-- Embeds OrcaJob.run (orca_job.py lines 113-123) by its observable
subprocess behaviour: the source chdirs into the working directory,
calls os.system("g16 < input > output") unconditionally, and chdirs
back.  It inspects nothing on disk, so the returned command list does
not depend on the file system. -/
def OrcaJob.run_system_commands (j : OrcaJob) (_fs : FileSystem) :
    List String :=
  ["g16 < " ++ j.filenames_input ++ " > " ++ j.filenames_output]

/-- Modelled from the spec: the external program's documented
"terminated normally" success marker.  No such constant appears in the
sources (run performs no completion check at all); the literal follows
the ORCA message named by the spec. -/
def success_marker : String := "ORCA TERMINATED NORMALLY"

/-- Modelled from the spec: is_complete() is described as "true iff the
output file exists AND contains the documented success marker as a
line"; the sources contain no such predicate. -/
def OrcaJob.is_complete (j : OrcaJob) (fs : FileSystem) : Bool :=
  match readFile fs (path_join j.path j.filenames_output) with
  | none => false
  | some content => (split_newlines content).contains success_marker

/-- The structured data cclib ccread extracts from an Orca output file.
Attributes a log does not define are modelled as none. -/
structure OrcaData where
  scfenergies : List ℚ
  enthalpy : Option ℚ
  freeenergy : Option ℚ
  deriving DecidableEq

/-- The dictionary returned by OrcaJob.get_energies. -/
structure OrcaEnergies where
  scfenergy : ℚ
  enthalpy : Option ℚ
  freeenergy : Option ℚ
  deriving DecidableEq

/-- Embeds OrcaJob.get_energies (orca_job.py lines 203-224): parse the
output file with ccread (a parse failure is the none argument), then
take data.scfenergies[-1] (IndexError on an empty list is none) and copy
the optional enthalpy and free energy. -/
def OrcaJob.get_energies (parsed : Option OrcaData) : Option OrcaEnergies :=
  match parsed with
  | none => none
  | some data =>
    match data.scfenergies.getLast? with
    | none => none
    | some scf => some ⟨scf, data.enthalpy, data.freeenergy⟩

/-- Embeds the list comprehension in corrections.main line 70:
[result.get_energies()["scfenergy"] for result in orca_results].  The
first exception aborts the whole comprehension, so a single failing
output yields none overall. -/
def collect_scf_energies : List (Option OrcaData) → Option (List ℚ)
  | [] => some []
  | p :: rest =>
    match OrcaJob.get_energies p with
    | none => none
    | some e =>
      match collect_scf_energies rest with
      | none => none
      | some l => some (e.scfenergy :: l)

/-- Embeds corrections.run_jobs (corrections.py lines 76-78): the worker
calls job.run() for its side effects and returns the job object itself;
at the result-association level it is the identity on jobs. -/
def run_jobs (job : OrcaJob) : OrcaJob := job

/-- First result recorded for submission index i among the completed
(index, result) pairs. -/
def lookup_result {β : Type} (i : ℕ) : List (ℕ × β) → Option β
  | [] => none
  | (jdx, y) :: rest => if jdx = i then some y else lookup_result i rest

/-- Reassemble completed results following a list of submission
indices; none when some index never completed. -/
def gather {β : Type} (completed : List (ℕ × β)) : List ℕ → Option (List β)
  | [] => some []
  | i :: is =>
    match lookup_result i completed, gather completed is with
    | some y, some ys => some (y :: ys)
    | _, _ => none

/-- Models multiprocessing.Pool.map as used in corrections.main line 67
(the pool is an external library, embedded by its documented contract):
the workers may finish in any completion order, each completion stores
the result under its submission index, and map returns the results in
submission order. -/
def pool_map {α β : Type} (f : α → β) (xs : List α) (order : List ℕ) :
    Option (List β) :=
  gather (order.filterMap (fun i => (xs.get? i).map (fun x => (i, f x))))
    (List.range xs.length)

/-- The structured data cclib ccread extracts from an original Gaussian
log file (corrections.get_energies reads scfenergies, enthalpy and
freeenergy).  Absent attributes are modelled as none. -/
structure GaussianLog where
  scfenergies : List ℚ
  enthalpy : Option ℚ
  freeenergy : Option ℚ
  deriving DecidableEq

/-- The dictionary built by corrections.get_energies: keys missing from
the log (or skipped by the truthiness test) keep their None default from
dict.fromkeys. -/
structure Energies where
  scfenergy : ℚ
  enthalpy : Option ℚ
  freeenergy : Option ℚ
  enthalpy_correction : Option ℚ
  freeenergy_correction : Option ℚ
  deriving DecidableEq

/-- Embeds corrections.get_energies (corrections.py lines 108-130):
scfenergy is scfenergies[-1] (IndexError on an empty list is none); the
enthalpy and free energy are copied, and their corrections computed,
only under the truthiness tests "if file.enthalpy:" and
"if file.freeenergy:", so the exact value 0.0 is skipped like an absent
value. -/
def get_energies (log : GaussianLog) : Option Energies :=
  match log.scfenergies.getLast? with
  | none => none
  | some scf =>
    let hpair : Option ℚ × Option ℚ :=
      match log.enthalpy with
      | some h => if h = 0 then (none, none) else (some h, some (h - scf))
      | none => (none, none)
    let gpair : Option ℚ × Option ℚ :=
      match log.freeenergy with
      | some g => if g = 0 then (none, none) else (some g, some (g - scf))
      | none => (none, none)
    some ⟨scf, hpair.1, gpair.1, hpair.2, gpair.2⟩

/-- Embeds corrections.print_results lines 88-89, the correction
transplant: orca_freeenergy = orca_energy + freeenergy_correction and
orca_enthalpy = orca_energy + enthalpy_correction.  Adding a None
correction raises TypeError (none); the free-energy sum is evaluated
first, as in the source.  The pair is (orca_enthalpy, orca_freeenergy). -/
def combine (orca_energy : ℚ) (g : Energies) : Option (ℚ × ℚ) :=
  match g.freeenergy_correction with
  | none => none
  | some fc =>
    match g.enthalpy_correction with
    | none => none
    | some hc => some (orca_energy + hc, orca_energy + fc)

/-- The cclib convertor factor for convertor(val, "eV", "kcal/mol"); the
conversion is an external pure lookup. -/
def eV_to_kcal_per_mol : ℚ := 23.060548867

/-- Embeds convertor(val, "eV", "kcal/mol") from cclib. -/
def convertor_eV_to_kcal (v : ℚ) : ℚ := v * eV_to_kcal_per_mol

/-- Embeds one iteration of the loop in corrections.print_results (lines
86-105): the transplanted energies are computed, the six energies are
converted, and the written line is modelled structurally as the name
together with the six converted values (the decimal rendering of
Python str() is not modelled).  A None among the used values raises
TypeError (none). -/
def print_row (name : String) (orca_energy : ℚ) (g : Energies) :
    Option (String × List ℚ) :=
  match combine orca_energy g with
  | none => none
  | some pair =>
    match g.enthalpy, g.freeenergy with
    | some h, some ge =>
      some (name,
        [g.scfenergy, h, ge, orca_energy, pair.1, pair.2].map convertor_eV_to_kcal)
    | _, _ => none

/-- Embeds the zip loop of corrections.print_results: rows are produced
in the order of list_filenames, and the iteration stops at the shortest
of the three lists, as Python zip does. -/
def print_rows : List String → List ℚ → List Energies →
    Option (List (String × List ℚ))
  | name :: names, orca :: orcas, g :: gs =>
    match print_row name orca g with
    | none => none
    | some row =>
      match print_rows names orcas gs with
      | none => none
      | some rows => some (row :: rows)
  | _, _, _ => some []

/-- The two-atom hydrogen molecule of the repository test suite. -/
def h2_molecule : Molecule := ⟨[[0, 0, 0], [0, 0, mkRat 37 50]], [1, 1], 2⟩

/-- A parameter dict in which every key is present (dispersion holds
None, as the build_header truthiness test expects). -/
def h2_args : OrcaArgs :=
  ⟨some "wB97M-V", some "Def2-TZVPP", some none, some none⟩

/-- A concrete job over the complete parameter dict. -/
def h2_job : OrcaJob := ⟨"h2", h2_molecule, "h2", "/base", h2_args⟩

/-- The same job with the parameter dict the command-line layer actually
builds (corrections.main line 50): no dispersion key. -/
def cli_h2_job : OrcaJob :=
  ⟨"h2", h2_molecule, "h2", "/base",
    corrections_orca_arguments "wB97M-V" "Def2-TZVPP" none⟩

/-- A file system on which the job's output file already contains the
success marker as a line. -/
def completed_fs : FileSystem :=
  writeFile emptyFS (path_join h2_job.path h2_job.filenames_output)
    success_marker

/-- Prefix test on the underlying character lists (String.startsWith,
restated so that it evaluates). -/
def begins_with (p s : String) : Bool := List.isPrefixOf p.data s.data

/-- The input script the source actually produces for h2_job: a
Gaussian-style deck (link-0 line, route section, title, charge and
multiplicity, geometry, basis-set footer). -/
def h2_script : List String :=
  ["%NProcShared=1", "# wB97M-V gen freq", "", "h2", "", "0 1",
   "H                      0.000000                  0.000000                  0.000000",
   "H                      0.000000                  0.000000                  0.740000",
   "", "H 0", "Def2-TZVPP", "****", "", "", ""]

/-- Three concrete jobs named as in the spec's order-preservation
property. -/
def jobs3 : List OrcaJob :=
  [⟨"c6h6", h2_molecule, "c6h6", "/base", h2_args⟩,
   ⟨"ch4", h2_molecule, "ch4", "/base", h2_args⟩,
   ⟨"nh3", h2_molecule, "nh3", "/base", h2_args⟩]

/-- Concrete refined SCF energies for the three jobs. -/
def scfs3 : List ℚ := [mkRat (-2301) 10, mkRat (-405) 10, mkRat (-565) 10]

/-- Concrete original energy records (all corrections present) for the
three jobs. -/
def gauss3 : List Energies :=
  [⟨mkRat (-2301) 10, some (mkRat (-2300) 10), some (mkRat (-2302) 10),
    some (mkRat 1 10), some (mkRat (-1) 10)⟩,
   ⟨mkRat (-405) 10, some (mkRat (-404) 10), some (mkRat (-406) 10),
    some (mkRat 1 10), some (mkRat (-1) 10)⟩,
   ⟨mkRat (-565) 10, some (mkRat (-564) 10), some (mkRat (-566) 10),
    some (mkRat 1 10), some (mkRat (-1) 10)⟩]

/-- The report rows produced for the three concrete jobs. -/
def rows3 : List (String × List ℚ) :=
  (print_rows (jobs3.map OrcaJob.name) scfs3 gauss3).getD []

/-- Reading back a freshly written file returns the written content. -/
theorem readFile_writeFile (fs : FileSystem) (p c : String) :
    readFile (writeFile fs p c) p = some c := by
  simp [readFile, writeFile, List.find?_cons]

/-- C9: the claim states that with the parameter records the CLI layer
constructs (which carry no dispersion entry) building the input header
succeeds and omits the dispersion block.  The code instead subscripts
orca_args["dispersion"], so with either CLI-built record (corrections.py
line 50 or gibbscorrections.py lines 69-72) build_header raises KeyError
(= none) for every functional, basis set, solvent and molecule. -/
theorem C9_build_header_keyerror (functional basisset name job_id basedir : String)
    (solvent : Option String) (mol : Molecule) :
    OrcaJob.build_header
      ⟨name, mol, job_id, basedir,
        corrections_orca_arguments functional basisset solvent⟩ = none ∧
    OrcaJob.build_header
      ⟨name, mol, job_id, basedir, get_orca_arguments functional basisset⟩ = none :=
  ⟨rfl, rfl⟩

/-- C8: the claim states that setup() writes an ORCA-format script with
a "* xyz charge multiplicity" block, a closing "*" and a solvation block
iff a solvent is set.  The code instead emits a Gaussian-style deck: for
the concrete h2 job the complete script is h2_script, no line of which
starts with "* xyz" and which contains no bare "*" line; moreover the
script is identical for every value of the solvent parameter, so no
solvation block is ever emitted. -/
theorem C8_gaussian_deck_not_orca :
    h2_job.build_input_script = some h2_script ∧
    (∀ line ∈ h2_script, begins_with "* xyz" line = false) ∧
    "*" ∉ h2_script ∧
    (∀ solv : Option String,
      OrcaJob.build_input_script
        ⟨"h2", h2_molecule, "h2", "/base",
          ⟨some "wB97M-V", some "Def2-TZVPP", solv, some none⟩⟩ =
        some h2_script) :=
  ⟨by decide, by decide, by decide, fun _solv => rfl⟩

/-- C3 counterexample: a job whose output file already contains the
success-marker line is complete, yet run() still issues the engine
subprocess command instead of skipping it. -/
theorem C3_completed_job_rerun :
    OrcaJob.is_complete h2_job completed_fs = true ∧
    OrcaJob.run_system_commands h2_job completed_fs =
      ["g16 < h2.inp > h2.out"] :=
  ⟨rfl, rfl⟩

/-- C3 amended: run() performs no completion check at all: even when the
output file already contains the success marker it launches exactly one
engine subprocess (os.system with g16), unconditionally. -/
theorem C3_run_always_invokes (j : OrcaJob) (fs : FileSystem)
    (_h : OrcaJob.is_complete j fs = true) :
    OrcaJob.run_system_commands j fs =
      ["g16 < " ++ j.filenames_input ++ " > " ++ j.filenames_output] :=
  rfl

/-- C3 witness: the amended statement evaluated on the concrete
completed job. -/
theorem C3_run_always_invokes_witness :
    OrcaJob.run_system_commands h2_job completed_fs =
      ["g16 < h2.inp > h2.out"] :=
  C3_run_always_invokes h2_job completed_fs rfl

/-- C4 counterexample: with the parameter record the CLI layer actually
constructs (no dispersion key), the first call of setup() already fails
with KeyError while building the input script, so "calling setup() twice
succeeds both times" is false for this job. -/
theorem C4_setup_keyerror :
    OrcaJob.setup_computation cli_h2_job emptyFS = none :=
  rfl

/-- C4 amended: for every job whose input script builds (in particular
whose parameter record carries the dispersion key), calling setup()
twice succeeds both times although the working directory already exists
after the first call, and both calls write the identical input-file
content. -/
theorem C4_setup_idempotent (j : OrcaJob) (fs : FileSystem) (s : List String)
    (hs : j.build_input_script = some s) :
    ∃ fs1 fs2,
      OrcaJob.setup_computation j fs = some fs1 ∧
      OrcaJob.setup_computation j fs1 = some fs2 ∧
      readFile fs1 (path_join j.path j.filenames_input) = some (join_nl s) ∧
      readFile fs2 (path_join j.path j.filenames_input) = some (join_nl s) := by
  have hsetup : ∀ fs0 : FileSystem, OrcaJob.setup_computation j fs0 =
      some (writeFile ⟨j.path :: fs0.dirs, fs0.files⟩
        (path_join j.path j.filenames_input) (join_nl s)) := by
    intro fs0
    simp [OrcaJob.setup_computation, makedirs, hs]
  exact ⟨_, _, hsetup fs, hsetup _, readFile_writeFile _ _ _,
    readFile_writeFile _ _ _⟩

/-- C4 witness: the amended statement evaluated on the concrete h2 job
whose parameter record carries the dispersion key. -/
theorem C4_setup_idempotent_witness :
    ∃ fs1 fs2,
      OrcaJob.setup_computation h2_job emptyFS = some fs1 ∧
      OrcaJob.setup_computation h2_job fs1 = some fs2 ∧
      readFile fs1 (path_join h2_job.path h2_job.filenames_input) =
        some (join_nl h2_script) ∧
      readFile fs2 (path_join h2_job.path h2_job.filenames_input) =
        some (join_nl h2_script) :=
  C4_setup_idempotent h2_job emptyFS h2_script (by decide)

/-- C2 counterexample: the natoms setter accepts any value without
validation, after which a coordinates assignment sized to the forged
natoms succeeds and leaves the molecule with three coordinate rows but
two elements, with no ValidationError anywhere. -/
theorem C2_natoms_bypass :
    ∃ m0 m2 : Molecule,
      Molecule.init [[0, 0, 0], [0, 0, mkRat 37 50]] [1, 1] = some m0 ∧
      Molecule.set_coordinates (Molecule.set_natoms m0 3)
        [[0, 0, 0], [0, 0, 0], [0, 0, 0]] = some m2 ∧
      ¬ m2.coordinates.length = m2.elements_list.length :=
  ⟨⟨[[0, 0, 0], [0, 0, mkRat 37 50]], [1, 1], 2⟩,
   ⟨[[0, 0, 0], [0, 0, 0], [0, 0, 0]], [1, 1], 3⟩,
   by decide, by decide, by decide⟩

/-- C2 amended: on a molecule whose stored natoms agrees with its two
sequences, setting coordinates or elements preserves the equal-length
invariant when it succeeds and fails with ValueError (returning the
molecule unchanged) when the new length differs from natoms, while
setting natoms never fails and leaves both sequences untouched — it is
only through an unvalidated natoms change that a later mutation can
break the invariant. -/
theorem C2_sized_mutations (m : Molecule) (v : List (List ℚ)) (w : List ℕ)
    (k : ℕ) (hc : m.coordinates.length = m.natoms)
    (he : m.elements_list.length = m.natoms) :
    (∀ m2, Molecule.set_coordinates m v = some m2 →
      m2.coordinates.length = m2.elements_list.length) ∧
    (v.length ≠ m.natoms → Molecule.set_coordinates m v = none) ∧
    (∀ m2, Molecule.set_elements_list m w = some m2 →
      m2.coordinates.length = m2.elements_list.length) ∧
    (w.length ≠ m.natoms → Molecule.set_elements_list m w = none) ∧
    (Molecule.set_natoms m k).coordinates = m.coordinates ∧
    (Molecule.set_natoms m k).elements_list = m.elements_list := by
  refine ⟨?_, ?_, ?_, ?_, rfl, rfl⟩
  · intro m2 h2m
    unfold Molecule.set_coordinates at h2m
    split at h2m
    · cases h2m
      simp only []
      omega
    · cases h2m
  · intro hv
    simp [Molecule.set_coordinates, hv]
  · intro m2 h2m
    unfold Molecule.set_elements_list at h2m
    split at h2m
    · cases h2m
      simp only []
      omega
    · cases h2m
  · intro hw
    simp [Molecule.set_elements_list, hw]

/-- C2 witness: the amended statement evaluated on the test-suite
hydrogen molecule with a wrongly sized coordinate list, a wrongly sized
element list and a forged atom count. -/
theorem C2_sized_mutations_witness :
    Molecule.set_coordinates h2_molecule [[1, 1, 1]] = none ∧
    Molecule.set_elements_list h2_molecule [6] = none ∧
    (Molecule.set_natoms h2_molecule 7).elements_list =
      h2_molecule.elements_list := by
  have h := C2_sized_mutations h2_molecule [[1, 1, 1]] [6] 7 rfl rfl
  exact ⟨h.2.1 (by decide), h.2.2.2.1 (by decide), h.2.2.2.2.2⟩

/-- C6 counterexample: in a batch of three jobs whose middle output is
malformed, the energy collection returns nothing at all: the valid
results of jobs 1 and 3 are dropped rather than reported with job 2
flagged. -/
theorem C6_middle_failure_drops_all :
    collect_scf_energies
      [some ⟨[mkRat (-501) 5], none, none⟩, none,
       some ⟨[mkRat (-2301) 10], none, none⟩] = none :=
  rfl

/-- C6 amended: a single job whose output fails to parse aborts the
whole retrieval step: whatever valid results surround it, the SCF-energy
collection of corrections.main raises and yields no per-job outcomes at
all. -/
theorem C6_failure_aborts_collection (pre post : List (Option OrcaData)) :
    collect_scf_energies (pre ++ none :: post) = none := by
  induction pre with
  | nil => rfl
  | cons p rest ih =>
    show collect_scf_energies (p :: (rest ++ none :: post)) = none
    unfold collect_scf_energies
    rw [ih]
    cases hval : OrcaJob.get_energies p <;> rfl


/-- A None enthalpy correction makes the transplant step raise. -/
theorem combine_eq_none_left (r : ℚ) (e : Energies)
    (h : e.enthalpy_correction = none) : combine r e = none := by
  cases hfc : e.freeenergy_correction with
  | none => simp [combine, hfc]
  | some fc => simp [combine, hfc, h]

/-- A None free-energy correction makes the transplant step raise. -/
theorem combine_eq_none_right (r : ℚ) (e : Energies)
    (h : e.freeenergy_correction = none) : combine r e = none := by
  simp [combine, h]

/-- C1: for every original-energy record (as produced by get_energies)
containing scf, enthalpy and free energy, and every refined SCF energy,
the combine step returns refined + (enthalpy − scf) as the refined
enthalpy and refined + (free energy − scf) as the refined free energy. -/
theorem C1_correction_transplant (log : GaussianLog) (e : Energies)
    (h g refined : ℚ) (he : get_energies log = some e)
    (hh : e.enthalpy = some h) (hg : e.freeenergy = some g) :
    combine refined e =
      some (refined + (h - e.scfenergy), refined + (g - e.scfenergy)) := by
  cases hscf : log.scfenergies.getLast? with
  | none => simp [get_energies, hscf] at he
  | some scf =>
    cases hE : log.enthalpy with
    | none =>
      simp [get_energies, hscf, hE] at he
      rw [← he] at hh
      simp at hh
    | some h0 =>
      cases hG : log.freeenergy with
      | none =>
        simp [get_energies, hscf, hE, hG] at he
        rw [← he] at hg
        by_cases h0z : h0 = 0 <;> simp [h0z] at hg
      | some g0 =>
        by_cases h0z : h0 = 0
        · simp [get_energies, hscf, hE, hG, h0z] at he
          rw [← he] at hh
          simp at hh
        · by_cases g0z : g0 = 0
          · simp [get_energies, hscf, hE, hG, h0z, g0z] at he
            rw [← he] at hg
            simp at hg
          · simp [get_energies, hscf, hE, hG, h0z, g0z] at he
            rw [← he] at hh hg ⊢
            simp at hh hg
            subst hh
            subst hg
            simp [combine]

/-- C1 witness: original scf −100.0, enthalpy −99.95, free energy
−99.97 (exact rationals) and refined scf −100.2 yield exactly −100.15
and −100.17. -/
theorem C1_correction_transplant_witness :
    ∃ e : Energies,
      get_energies ⟨[-100], some (mkRat (-1999) 20), some (mkRat (-9997) 100)⟩ =
        some e ∧
      combine (mkRat (-501) 5) e = some (-100.15, -100.17) := by
  refine ⟨⟨-100, some (mkRat (-1999) 20), some (mkRat (-9997) 100),
    some (mkRat (-1999) 20 - (-100)), some (mkRat (-9997) 100 - (-100))⟩,
    rfl, ?_⟩
  have hc := C1_correction_transplant
    ⟨[-100], some (mkRat (-1999) 20), some (mkRat (-9997) 100)⟩
    ⟨-100, some (mkRat (-1999) 20), some (mkRat (-9997) 100),
      some (mkRat (-1999) 20 - (-100)), some (mkRat (-9997) 100 - (-100))⟩
    (mkRat (-1999) 20) (mkRat (-9997) 100) (mkRat (-501) 5) rfl rfl rfl
  rw [hc]
  norm_num [Rat.mkRat_eq_div, Prod.ext_iff]

/-- C10: the presence of enthalpy and free energy in the extracted
record is decided by Python truthiness, so a parsed value of exactly 0.0
yields None for the value and its correction, and the combine step then
receives no correction and raises. -/
theorem C10_truthiness_zero (log : GaussianLog) (e : Energies)
    (he : get_energies log = some e) :
    (log.enthalpy = some 0 →
      e.enthalpy = none ∧ e.enthalpy_correction = none ∧
      ∀ r : ℚ, combine r e = none) ∧
    (log.freeenergy = some 0 →
      e.freeenergy = none ∧ e.freeenergy_correction = none ∧
      ∀ r : ℚ, combine r e = none) := by
  cases hscf : log.scfenergies.getLast? with
  | none => simp [get_energies, hscf] at he
  | some scf =>
    constructor
    · intro hE0
      simp [get_energies, hscf, hE0] at he
      refine ⟨?_, ?_, ?_⟩
      · rw [← he]
      · rw [← he]
      · intro r
        refine combine_eq_none_left r e ?_
        rw [← he]
    · intro hG0
      simp [get_energies, hscf, hG0] at he
      refine ⟨?_, ?_, ?_⟩
      · rw [← he]
      · rw [← he]
      · intro r
        refine combine_eq_none_right r e ?_
        rw [← he]

/-- C10 witness: a log whose enthalpy is exactly 0.0 loses both the
enthalpy and its correction, and the combine step fails. -/
theorem C10_truthiness_zero_witness :
    ∃ e : Energies,
      get_energies ⟨[-100], some 0, some (mkRat (-9997) 100)⟩ = some e ∧
      e.enthalpy = none ∧ e.enthalpy_correction = none ∧
      combine (mkRat (-501) 5) e = none := by
  have h := C10_truthiness_zero ⟨[-100], some 0, some (mkRat (-9997) 100)⟩
    ⟨-100, none, some (mkRat (-9997) 100), none,
      some (mkRat (-9997) 100 - (-100))⟩ rfl
  obtain ⟨h1, h2, h3⟩ := h.1 rfl
  exact ⟨⟨-100, none, some (mkRat (-9997) 100), none,
    some (mkRat (-9997) 100 - (-100))⟩, rfl, h1, h2, h3 (mkRat (-501) 5)⟩

/-- The rendering loop produces one line per coordinate row, of the
claimed shape, whenever elements match coordinates and all atomic
numbers have symbols. -/
theorem xyz_lines_spec (coords : List (List ℚ)) :
    ∀ (elems : List ℕ), coords.length = elems.length →
    (∀ z ∈ elems, (element_symbol z).isSome = true) →
    ∃ lines, xyz_lines coords elems = some lines ∧
      lines.length = coords.length ∧
      ∀ i x y z3, coords.get? i = some [x, y, z3] →
        ∃ z sym, elems.get? i = some z ∧ element_symbol z = some sym ∧
          lines.get? i = some (ljust 5 sym ++ " " ++ rjust 25 (fmtFixed6 x) ++
            " " ++ rjust 25 (fmtFixed6 y) ++ " " ++ rjust 25 (fmtFixed6 z3)) := by
  induction coords with
  | nil =>
    intro elems _hlen _hsym
    refine ⟨[], rfl, rfl, ?_⟩
    intro i x y z3 hco
    simp at hco
  | cons atom coords ih =>
    intro elems hlen hsym
    cases elems with
    | nil => simp at hlen
    | cons z zs =>
      have hlen2 : coords.length = zs.length := by
        simpa using hlen
      obtain ⟨sym, hsym0⟩ := Option.isSome_iff_exists.mp
        (hsym z (List.mem_cons_self z zs))
      obtain ⟨rest, hrest, hlenr, hspec⟩ := ih zs hlen2
        (fun w hw => hsym w (List.mem_cons_of_mem z hw))
      refine ⟨join_space (ljust 5 sym :: atom.map (fun s => rjust 25 (fmtFixed6 s)))
        :: rest, ?_, by simp [hlenr], ?_⟩
      · show xyz_lines (atom :: coords) (z :: zs) = _
        unfold xyz_lines
        rw [hsym0, hrest]
      · intro i x y z3 hco
        cases i with
        | zero =>
          simp at hco
          subst hco
          refine ⟨z, sym, rfl, hsym0, ?_⟩
          simp [join_space, String.append_assoc]
        | succ i2 =>
          simp only [List.get?_cons_succ] at hco ⊢
          exact hspec i2 x y z3 hco

/-- C5: render_geometry_block returns exactly one line per atom, each
line being the element symbol left-justified to width 5 followed by the
three coordinates formatted to six decimals and right-justified to
width 25 (fields separated by the single spaces of the " ".join). -/
theorem C5_geometry_format (m : Molecule)
    (hlen : m.coordinates.length = m.elements_list.length)
    (hsym : ∀ z ∈ m.elements_list, (element_symbol z).isSome = true) :
    ∃ lines, m.xyz_geometry = some lines ∧
      lines.length = m.coordinates.length ∧
      ∀ i x y z3, m.coordinates.get? i = some [x, y, z3] →
        ∃ z sym, m.elements_list.get? i = some z ∧ element_symbol z = some sym ∧
          lines.get? i = some (ljust 5 sym ++ " " ++ rjust 25 (fmtFixed6 x) ++
            " " ++ rjust 25 (fmtFixed6 y) ++ " " ++ rjust 25 (fmtFixed6 z3)) :=
  xyz_lines_spec m.coordinates m.elements_list hlen hsym

/-- C5 witness: the two-atom hydrogen input produces exactly the two
lines of the repository test suite (0.74 entering as the exact rational
37/50). -/
theorem C5_geometry_format_witness :
    (∃ lines, h2_molecule.xyz_geometry = some lines ∧ lines.length = 2) ∧
    h2_molecule.xyz_geometry = some
      ["H                      0.000000                  0.000000                  0.000000",
       "H                      0.000000                  0.000000                  0.740000"] ∧
    (mkRat 37 50 : ℚ) = 0.74 := by
  refine ⟨?_, by decide, by norm_num [mkRat, Rat.normalize]⟩
  obtain ⟨lines, h1, h2, _⟩ := C5_geometry_format h2_molecule rfl (by decide)
  exact ⟨lines, h1, h2.trans rfl⟩

/-- Among the completed (index, result) pairs, the entry for submission
index i always carries the result of input i. -/
theorem lookup_result_filterMap {α β : Type} (f : α → β) (xs : List α)
    (i : ℕ) (x : α) (hx : xs.get? i = some x) :
    ∀ (order : List ℕ), i ∈ order →
      lookup_result i
        (order.filterMap (fun jdx => (xs.get? jdx).map (fun v => (jdx, f v)))) =
      some (f x) := by
  intro order
  induction order with
  | nil => intro hmem; simp at hmem
  | cons j rest ih =>
    intro hmem
    by_cases hji : j = i
    · subst hji
      have hx2 : xs[j]? = some x := by
        rw [← List.get?_eq_getElem?]
        exact hx
      simp [List.filterMap_cons, hx2, lookup_result]
    · have hmem2 : i ∈ rest := by
        rcases List.mem_cons.mp hmem with h1 | h2
        · exact absurd h1.symm hji
        · exact h2
      cases hgj : xs.get? j with
      | none =>
        simp only [List.filterMap_cons, hgj, Option.map_none']
        exact ih hmem2
      | some vj =>
        simp only [List.filterMap_cons, hgj, Option.map_some']
        rw [lookup_result, if_neg hji]
        exact ih hmem2

/-- Gathering along consecutive indices returns the mapped inputs in
input order. -/
theorem gather_range_aux {α β : Type} (f : α → β) (completed : List (ℕ × β)) :
    ∀ (ys : List α) (k : ℕ),
      (∀ i x, ys.get? i = some x → lookup_result (k + i) completed = some (f x)) →
      gather completed (List.range' k ys.length) = some (ys.map f) := by
  intro ys
  induction ys with
  | nil => intro k _hl; rfl
  | cons y rest ih =>
    intro k hl
    have h0 : lookup_result k completed = some (f y) := by
      have hh := hl 0 y rfl
      simpa using hh
    have hrest : ∀ i x, rest.get? i = some x →
        lookup_result (k + 1 + i) completed = some (f x) := by
      intro i x hx
      have hh := hl (i + 1) x (by simpa using hx)
      have harith : k + (i + 1) = k + 1 + i := by omega
      rw [harith] at hh
      exact hh
    rw [List.length_cons, List.range'_succ]
    simp only [gather, h0, ih (k + 1) hrest, List.map_cons]

/-- The worker pool returns the results in submission order for every
completion order that is a permutation of the submission indices. -/
theorem pool_map_eq_map {α β : Type} (f : α → β) (xs : List α)
    (order : List ℕ) (hperm : List.Perm order (List.range xs.length)) :
    pool_map f xs order = some (xs.map f) := by
  unfold pool_map
  have hmem : ∀ i, i < xs.length → i ∈ order := by
    intro i hi
    rw [hperm.mem_iff]
    exact List.mem_range.mpr hi
  have hlook : ∀ i x, xs.get? i = some x →
      lookup_result (0 + i)
        (order.filterMap (fun jdx => (xs.get? jdx).map (fun v => (jdx, f v)))) =
      some (f x) := by
    intro i x hx
    have hi : i < xs.length := by
      by_contra hnot
      rw [List.get?_eq_none.mpr (by omega)] at hx
      cases hx
    rw [Nat.zero_add]
    exact lookup_result_filterMap f xs i x hx order (hmem i hi)
  rw [List.range_eq_range']
  exact gather_range_aux f _ xs 0 hlook

/-- The batch worker returns its job unchanged. -/
theorem map_run_jobs_id (jobs : List OrcaJob) :
    List.map run_jobs jobs = jobs := by
  induction jobs with
  | nil => rfl
  | cons a l ihl =>
    rw [List.map_cons, ihl]
    rfl

/-- A successfully printed row is named after its job. -/
theorem print_row_name (n : String) (o : ℚ) (g : Energies)
    (row : String × List ℚ) (h : print_row n o g = some row) : row.1 = n := by
  unfold print_row at h
  cases hc : combine o g with
  | none => rw [hc] at h; cases h
  | some pair =>
    rw [hc] at h
    cases hE : g.enthalpy with
    | none => rw [hE] at h; cases h
    | some hv =>
      cases hG : g.freeenergy with
      | none => rw [hE, hG] at h; cases h
      | some gv =>
        rw [hE, hG] at h
        cases h
        rfl

/-- The report rows carry the job names in the order they were given. -/
theorem print_rows_names (names : List String) :
    ∀ (scfs : List ℚ) (gauss : List Energies) (rows : List (String × List ℚ)),
      print_rows names scfs gauss = some rows →
      names.length ≤ scfs.length → names.length ≤ gauss.length →
      rows.map Prod.fst = names := by
  induction names with
  | nil =>
    intro scfs gauss rows h _ _
    cases scfs <;> cases gauss <;> simp [print_rows] at h <;> simp [← h]
  | cons n ns ih =>
    intro scfs gauss rows h h1 h2
    cases scfs with
    | nil => simp at h1
    | cons o os =>
      cases gauss with
      | nil => simp at h2
      | cons g gs =>
        unfold print_rows at h
        cases hrow : print_row n o g with
        | none => rw [hrow] at h; cases h
        | some row =>
          rw [hrow] at h
          cases hrec : print_rows ns os gs with
          | none => rw [hrec] at h; cases h
          | some rs =>
            rw [hrec] at h
            cases h
            simp only [List.map_cons]
            rw [print_row_name n o g row hrow,
              ih os gs rs hrec (by simpa using h1) (by simpa using h2)]

/-- C7: for every completion order that permutes the submission indices,
the pool returns the job results in submission order, and the rows of
the written report carry the job names in that same original order. -/
theorem C7_order_preserved (jobs : List OrcaJob) (order : List ℕ)
    (scfs : List ℚ) (gauss : List Energies) (rows : List (String × List ℚ))
    (hperm : List.Perm order (List.range jobs.length)) :
    pool_map run_jobs jobs order = some jobs ∧
    (print_rows (jobs.map OrcaJob.name) scfs gauss = some rows →
      scfs.length = jobs.length → gauss.length = jobs.length →
      rows.map Prod.fst = jobs.map OrcaJob.name) := by
  constructor
  · have hp := pool_map_eq_map run_jobs jobs order hperm
    rw [map_run_jobs_id jobs] at hp
    exact hp
  · intro hrows hslen hglen
    exact print_rows_names (jobs.map OrcaJob.name) scfs gauss rows hrows
      (by simp [hslen]) (by simp [hglen])

/-- C7 witness: the jobs named c6h6, ch4, nh3 completing in the order
2, 0, 1 still yield results and report rows in submission order. -/
theorem C7_order_preserved_witness :
    pool_map run_jobs jobs3 [2, 0, 1] = some jobs3 ∧
    rows3.map Prod.fst = ["c6h6", "ch4", "nh3"] := by
  have h := C7_order_preserved jobs3 [2, 0, 1] scfs3 gauss3 rows3 (by decide)
  refine ⟨h.1, ?_⟩
  have hr := h.2 rfl rfl rfl
  exact hr.trans rfl

end GibbsCorrections
